import Mathlib

/-!
Verification development for the linkservice repository.

The Go service (internal/linkservice/service.go) exposes two gRPC methods,
`Create` and `Get`, over a PostgreSQL table `links` (database/scheme.sql)
with a 10-character primary-key column `link` and a unique column
`original_url` capped at 2048 characters.  Input validation is done with
two compiled regular expressions, and fresh short links are produced by
`generateRandomСharacters` from a 63-character alphabet.

We embed the regular expressions with a Brzozowski-derivative matcher over
an explicit regex syntax mirroring the Go pattern literals, embed the
database as a list of rows together with the constraint checks the schema
imposes (including the literal `pq:` error strings the Go code compares
against), and embed `Create`, its insert/retry loop, and `Get` as state
passing functions.  The retry loop of `Create` is unbounded in Go; it is
embedded with one random source per iteration, an exhausted source list
standing for a run of the loop that has not yet terminated.
-/

namespace LinkService

/-! ## Regular expressions (embedding Go `regexp.MatchString`)

Character classes are embedded as boolean predicates; matching is decided
with Brzozowski derivatives, with smart constructors keeping derivative
terms small.  A pattern anchored as `^...$` in Go matches a string iff the
whole string is in the pattern language, which is what the derivative
matcher decides. -/

/-- The class `\w` = `[0-9A-Za-z_]`, also the class `[0-9a-zA-Z_]` of
`linkTemplate` (Go RE2 `\w` is ASCII). -/
def isWordChar (c : Char) : Bool :=
  (('0' ≤ c && c ≤ '9') || ('A' ≤ c && c ≤ 'Z') || ('a' ≤ c && c ≤ 'z') || c == '_')

/-- The class `[\w.-]` (also written `[\w\.-]` in the pattern). -/
def isHostChar (c : Char) : Bool :=
  isWordChar c || c == '.' || c == '-'

/-- The class `[\w\-\._~:/?#[\]@!\$&'\(\)\*\+,;=.]` (the apostrophe is
`Char.ofNat 39`). -/
def isTailChar (c : Char) : Bool :=
  isWordChar c || c == '-' || c == '.' || c == '_' || c == '~' || c == ':' ||
    c == '/' || c == '?' || c == '#' || c == '[' || c == ']' || c == '@' ||
    c == '!' || c == '$' || c == '&' || c == Char.ofNat 39 || c == '(' ||
    c == ')' || c == '*' || c == '+' || c == ',' || c == ';' || c == '='

/-- The character classes occurring in the two patterns of service.go,
named first-order so that regexes have decidable equality. -/
inductive CC where
  | word : CC
  | host : CC
  | tail : CC
  | chr : Char → CC
deriving DecidableEq

/-- Membership test of a character class. -/
def CC.mem : CC → Char → Bool
  | .word, c => isWordChar c
  | .host, c => isHostChar c
  | .tail, c => isTailChar c
  | .chr a, c => c == a

inductive RE where
  | fail : RE
  | eps : RE
  | cls : CC → RE
  | cat : RE → RE → RE
  | alt : RE → RE → RE
  | star : RE → RE
deriving DecidableEq

def RE.nullable : RE → Bool
  | .fail => false
  | .eps => true
  | .cls _ => false
  | .cat a b => a.nullable && b.nullable
  | .alt a b => a.nullable || b.nullable
  | .star _ => true

def RE.mkCat : RE → RE → RE
  | .fail, _ => .fail
  | _, .fail => .fail
  | .eps, b => b
  | a, .eps => a
  | a, b => .cat a b

/-- Top-level alternatives of a regex, flattened. -/
def RE.alts : RE → List RE
  | .fail => []
  | .alt a b => a.alts ++ b.alts
  | r => [r]

def RE.unAlts : List RE → RE
  | [] => .fail
  | [r] => r
  | r :: rs => .alt r (RE.unAlts rs)

/-- Smart alternation: flatten, drop duplicates.  This keeps the set of
derivative states finite, so that iterated derivatives reach a fixpoint. -/
def RE.mkAlt (a b : RE) : RE :=
  RE.unAlts (List.eraseDups (a.alts ++ b.alts))

def RE.deriv : RE → Char → RE
  | .fail, _ => .fail
  | .eps, _ => .fail
  | .cls p, c => if p.mem c then .eps else .fail
  | .cat a b, c =>
      if a.nullable then RE.mkAlt (RE.mkCat (a.deriv c) b) (b.deriv c)
      else RE.mkCat (a.deriv c) b
  | .alt a b, c => RE.mkAlt (a.deriv c) (b.deriv c)
  | .star a, c => RE.mkCat (a.deriv c) (.star a)

def RE.matchesL (r : RE) (cs : List Char) : Bool :=
  (cs.foldl RE.deriv r).nullable

/-- Embedding of `regexp.MatchString` for a pattern anchored as `^...$`. -/
def matchString (r : RE) (s : String) : Bool :=
  RE.matchesL r s.data

/-- Literal single character. -/
def RE.chr (c : Char) : RE := .cls (.chr c)

/-- Literal string. -/
def RE.str (s : String) : RE :=
  s.data.foldr (fun c r => RE.cat (RE.chr c) r) .eps

/-- The `?` postfix operator. -/
def RE.opt (r : RE) : RE := .alt r .eps

/-- The `+` postfix operator. -/
def RE.plus (r : RE) : RE := .cat r (.star r)

/-- The `{n}` postfix operator: n concatenated copies. -/
def RE.repn (r : RE) : Nat → RE
  | 0 => .eps
  | n + 1 => .cat r (RE.repn r n)

/-- Embedding of `URLTemplate`, the compiled pattern
`^(?:http(s)?:\/\/)?[\w.-]+(?:\.[\w\.-]+)+[\w\-\._~:/?#[\]@!\$&'\(\)\*\+,;=.]+$`. -/
def URLTemplate : RE :=
  RE.cat
    (RE.opt (RE.cat (RE.str "http") (RE.cat (RE.opt (RE.chr 's')) (RE.str "://"))))
    (RE.cat (RE.plus (RE.cls .host))
      (RE.cat (RE.plus (RE.cat (RE.chr '.') (RE.plus (RE.cls .host))))
        (RE.plus (RE.cls .tail))))

/-- Embedding of `linkTemplate`, the compiled pattern `^[0-9a-zA-Z_]{10}$`. -/
def linkTemplate : RE :=
  RE.repn (RE.cls .word) 10

example : matchString URLTemplate "https://golang.org/" = true := by decide
example : matchString URLTemplate "this is not a URL" = false := by decide
example : matchString URLTemplate "http://abc.abc/" = true := by decide
example : matchString linkTemplate "123_abcABC" = true := by decide
example : matchString linkTemplate "@5gfh35^Gdfh&EWR" = false := by decide
example : matchString linkTemplate "0000000000" = true := by decide

/-! ## A syntactically accepted URL of length 2054 -/

/-- A well-formed URL, 2054 characters long: scheme, one-letter host label,
then 2044 further word characters containing one dot. -/
def longURL : String :=
  String.mk ("http://a.aa".data ++ List.replicate 2043 'a')

/-- Iterating the derivative over a character that fixes the state leaves
the state unchanged. -/
theorem foldl_deriv_fix (D : RE) (c : Char) (hD : RE.deriv D c = D) :
    ∀ n : Nat, List.foldl RE.deriv D (List.replicate n c) = D := by
  intro n
  induction n with
  | zero => rfl
  | succ n ih => rw [List.replicate_succ, List.foldl_cons, hD, ih]

/-- The 2054-character URL is accepted by the URL pattern. -/
theorem matchString_longURL : matchString URLTemplate longURL = true := by
  have hfix : RE.deriv (List.foldl RE.deriv URLTemplate "http://a.aa".data) 'a'
      = List.foldl RE.deriv URLTemplate "http://a.aa".data := by rfl
  show RE.nullable
      (List.foldl RE.deriv URLTemplate ("http://a.aa".data ++ List.replicate 2043 'a')) = true
  rw [List.foldl_append, foldl_deriv_fix _ _ hfix]
  rfl

/-- The length of the long URL exceeds 2048. -/
theorem longURL_length : longURL.length = 2054 := by
  show ("http://a.aa".data ++ List.replicate 2043 'a').length = 2054
  rw [List.length_append, List.length_replicate]
  rfl

/-! ## The persistent store (database/scheme.sql)

The table `links` has columns `link char(10)` (primary key, constraint
`link_pk`) and `original_url varchar(2048)` (not null, constraint
`original_url_unique`).  A store is the list of rows in insertion order;
`SELECT ... WHERE` returns the first matching row.  An insert checks the
column widths and the two uniqueness constraints and reports the same
error strings the `pq` driver produces, since service.go compares the
error text literally. -/

structure Row where
  link : String
  original_url : String
deriving DecidableEq

abbrev Store := List Row

/-- Result of `SELECT link FROM links WHERE original_url = $1`. -/
def lookupByURL : Store → String → Option String
  | [], _ => none
  | r :: rs, u => if r.original_url = u then some r.link else lookupByURL rs u

/-- Result of `SELECT original_url FROM links WHERE link = $1`. -/
def lookupByLink : Store → String → Option String
  | [], _ => none
  | r :: rs, l => if r.link = l then some r.original_url else lookupByLink rs l

/-- The error text produced on a `link_pk` violation; service.go compares
the insert error against exactly this string (its local `UCViolation`). -/
def UCViolation : String :=
  "pq: duplicate key value violates unique constraint \"link_pk\""

/-- The error text produced on an `original_url_unique` violation. -/
def urlUCViolation : String :=
  "pq: duplicate key value violates unique constraint \"original_url_unique\""

/-- The error text produced when the url exceeds varchar(2048). -/
def urlTooLong : String :=
  "pq: value too long for type character varying(2048)"

/-- The error text produced when the link exceeds char(10). -/
def linkTooLong : String :=
  "pq: value too long for type character(10)"

/-- Effect of `INSERT INTO links (link, original_url) VALUES ($1, $2)`:
the column-width checks and the two uniqueness constraints of scheme.sql,
reported as the `pq` driver error strings. -/
def dbInsert (st : Store) (link url : String) : Except String Store :=
  if 10 < link.length then .error linkTooLong
  else if 2048 < url.length then .error urlTooLong
  else if st.any (fun r => r.link == link) then .error UCViolation
  else if st.any (fun r => r.original_url == url) then .error urlUCViolation
  else .ok (st ++ [⟨link, url⟩])

/-! ## The service (internal/linkservice/service.go) -/

/-- The `api.URL` request/response message. -/
structure URLMsg where
  url : String
deriving DecidableEq

/-- The `api.Link` request/response message. -/
structure LinkMsg where
  link : String
deriving DecidableEq

/-- The errors service.go can return to a caller. -/
inductive SvcError where
  | reqProc : SvcError
  | invalidURL : SvcError
  | invalidLink : SvcError
  | urlNotFound : SvcError
deriving DecidableEq

/-- Length of generated short links (the Go variable `lengthLink`). -/
def lengthLink : Nat := 10

/-- The generation alphabet of `generateRandomСharacters`: 63 characters. -/
def alphabet : List Char :=
  "0123456789ABCDEFGHIJKLMNOPQRSTUVWXYZ_abcdefghijklmnopqrstuvwxyz".data

/-- Embedding of `generateRandomСharacters`: position `i` receives
`alphabet[rand.Intn(len(alphabet))]`, the random draws being supplied by
`src` (reduced modulo the alphabet size, as `rand.Intn` guarantees). -/
def generateRandomCharacters (length : Nat) (src : Nat → Nat) : String :=
  String.mk ((List.range length).map (fun i => alphabet.getD (src i % alphabet.length) '0'))

/-- The generate-and-insert loop of `Create` (service.go lines 84-100):
generate a candidate link, attempt the insert, break on success, retry on
an error equal to the `UCViolation` string, abort with `ErrReqProc` on any
other error.  One random source is consumed per iteration; `none` stands
for a run that has not terminated within the supplied sources. -/
def createLoop (st : Store) (url : String) :
    List (Nat → Nat) → Option ((Option LinkMsg × Option SvcError) × Store)
  | [] => none
  | src :: rest =>
    match dbInsert st (generateRandomCharacters lengthLink src) url with
    | .error e =>
        if e ≠ UCViolation then some ((none, some .reqProc), st)
        else createLoop st url rest
    | .ok st' => some ((some ⟨generateRandomCharacters lengthLink src⟩, none), st')

/-- Embedding of `GRPCServer.Create`: validate the URL, look up an
existing mapping by URL and return its link if present, otherwise run the
generate-and-insert loop.  The returned pair mirrors the Go signature
`(*api.Link, error)`; the store after the call is returned alongside. -/
def Create (st : Store) (req : URLMsg) (srcs : List (Nat → Nat)) :
    Option ((Option LinkMsg × Option SvcError) × Store) :=
  if !(matchString URLTemplate req.url) then some ((none, some .invalidURL), st)
  else
    match lookupByURL st req.url with
    | some link => some ((some ⟨link⟩, none), st)
    | none => createLoop st req.url srcs

/-- Embedding of `GRPCServer.Get`: validate the short link, look up the
original URL, report `ErrURLNotFound` when no row exists.  `Get` never
writes, so no store is returned. -/
def Get (st : Store) (req : LinkMsg) : Option URLMsg × Option SvcError :=
  if !(matchString linkTemplate req.link) then (none, some .invalidLink)
  else
    match lookupByLink st req.link with
    | none => (none, some .urlNotFound)
    | some url => (some ⟨url⟩, none)

/-! ## Request sequences and the store invariant -/

/-- One incoming request. -/
inductive Op where
  | create : URLMsg → List (Nat → Nat) → Op
  | get : LinkMsg → Op

/-- The store after serving one request (a `Create` whose loop has not
terminated has not committed anything new beyond its failed attempts,
which change nothing, so the store is kept). -/
def runOp (st : Store) : Op → Store
  | .create u srcs =>
    match Create st u srcs with
    | some (_, st') => st'
    | none => st
  | .get _ => st

/-- The store after serving a sequence of requests. -/
def run (st : Store) (ops : List Op) : Store :=
  ops.foldl runOp st

/-- The schema invariant: `link` is unique and `original_url` is unique,
so the table is a bijection between its links and its URLs. -/
def Inv (st : Store) : Prop :=
  (st.map Row.link).Nodup ∧ (st.map Row.original_url).Nodup

/-- Well-formed store: the schema invariant holds and every stored link
has the shape `linkTemplate` requires. -/
def WF (st : Store) : Prop :=
  Inv st ∧ ∀ r ∈ st, matchString linkTemplate r.link = true

/-! ## Basic lemmas about the matcher -/

theorem foldl_deriv_fail : ∀ cs : List Char, List.foldl RE.deriv RE.fail cs = RE.fail := by
  intro cs
  induction cs with
  | nil => rfl
  | cons c cs ih => rw [List.foldl_cons]; exact ih

theorem mkCat_eps_left (b : RE) : RE.mkCat RE.eps b = b := by
  cases b <;> rfl

/-- Matching `{n}` copies of a class: the string has length `n` and every
character is in the class. -/
theorem matchesL_repn (p : CC) :
    ∀ (cs : List Char) (n : Nat),
      (RE.matchesL (RE.repn (RE.cls p) n) cs = true ↔
        cs.length = n ∧ cs.all p.mem = true) := by
  intro cs
  induction cs with
  | nil =>
    intro n
    cases n with
    | zero => simp [RE.matchesL, RE.repn, RE.nullable]
    | succ m => simp [RE.matchesL, RE.repn, RE.nullable]
  | cons c cs ih =>
    intro n
    cases n with
    | zero =>
      show RE.matchesL (RE.repn (RE.cls p) 0) (c :: cs) = true ↔ _
      rw [RE.matchesL, List.foldl_cons]
      have hd : RE.deriv (RE.repn (RE.cls p) 0) c = RE.fail := rfl
      rw [hd, foldl_deriv_fail]
      simp [RE.nullable]
    | succ m =>
      show RE.matchesL (RE.repn (RE.cls p) (m + 1)) (c :: cs) = true ↔ _
      rw [RE.matchesL, List.foldl_cons]
      by_cases hc : p.mem c = true
      · have hd : RE.deriv (RE.repn (RE.cls p) (m + 1)) c = RE.repn (RE.cls p) m := by
          show RE.deriv (RE.cat (RE.cls p) (RE.repn (RE.cls p) m)) c = _
          rw [RE.deriv]
          simp [RE.nullable, RE.deriv, hc, mkCat_eps_left]
        rw [hd]
        have hih := ih m
        rw [RE.matchesL] at hih
        rw [hih]
        simp [hc]
      · have hd : RE.deriv (RE.repn (RE.cls p) (m + 1)) c = RE.fail := by
          show RE.deriv (RE.cat (RE.cls p) (RE.repn (RE.cls p) m)) c = _
          rw [RE.deriv]
          simp [RE.nullable, RE.deriv, hc, RE.mkCat]
        rw [hd, foldl_deriv_fail]
        simp [RE.nullable, hc]

/-! ## Basic lemmas about the store -/

theorem lookupByURL_eq_some {st : Store} {u l : String}
    (h : lookupByURL st u = some l) :
    ∃ r ∈ st, r.original_url = u ∧ r.link = l := by
  induction st with
  | nil => simp [lookupByURL] at h
  | cons r rs ih =>
    rw [lookupByURL] at h
    by_cases hr : r.original_url = u
    · rw [if_pos hr] at h
      exact ⟨r, List.mem_cons_self r rs, hr, (Option.some.injEq _ _).mp h⟩
    · rw [if_neg hr] at h
      obtain ⟨r', hmem, hu, hl⟩ := ih h
      exact ⟨r', List.mem_cons_of_mem r hmem, hu, hl⟩

theorem lookupByURL_eq_none {st : Store} {u : String} :
    lookupByURL st u = none ↔ ∀ r ∈ st, r.original_url ≠ u := by
  induction st with
  | nil => simp [lookupByURL]
  | cons r rs ih =>
    rw [lookupByURL]
    by_cases hr : r.original_url = u
    · simp [hr]
    · simp [hr, ih]

theorem lookupByURL_append_fresh {st : Store} {u l : String}
    (h : ∀ r ∈ st, r.original_url ≠ u) :
    lookupByURL (st ++ [⟨l, u⟩]) u = some l := by
  induction st with
  | nil => simp [lookupByURL]
  | cons r rs ih =>
    rw [List.cons_append, lookupByURL,
      if_neg (h r (List.mem_cons_self r rs))]
    exact ih fun r' hr' => h r' (List.mem_cons_of_mem r hr')

theorem lookupByLink_append_fresh {st : Store} {u l : String}
    (h : ∀ r ∈ st, r.link ≠ l) :
    lookupByLink (st ++ [⟨l, u⟩]) l = some u := by
  induction st with
  | nil => simp [lookupByLink]
  | cons r rs ih =>
    rw [List.cons_append, lookupByLink,
      if_neg (h r (List.mem_cons_self r rs))]
    exact ih fun r' hr' => h r' (List.mem_cons_of_mem r hr')

theorem lookupByLink_of_mem {st : Store} {r : Row}
    (hnd : (st.map Row.link).Nodup) (hr : r ∈ st) :
    lookupByLink st r.link = some r.original_url := by
  induction st with
  | nil => simp at hr
  | cons a rs ih =>
    rw [List.map_cons, List.nodup_cons] at hnd
    rw [lookupByLink]
    by_cases ha : a.link = r.link
    · rw [if_pos ha]
      rcases List.mem_cons.mp hr with hra | hra
      · rw [hra]
      · exact absurd (ha ▸ List.mem_map_of_mem Row.link hra) hnd.1
    · rw [if_neg ha]
      rcases List.mem_cons.mp hr with hra | hra
      · exact absurd (hra ▸ rfl) ha
      · exact ih hnd.2 hra

/-- What a successful insert guarantees: the row is appended, both column
widths fit, and both uniqueness constraints held. -/
theorem dbInsert_ok {st st' : Store} {l u : String}
    (h : dbInsert st l u = .ok st') :
    st' = st ++ [⟨l, u⟩] ∧ l.length ≤ 10 ∧ u.length ≤ 2048 ∧
      (∀ r ∈ st, r.link ≠ l) ∧ (∀ r ∈ st, r.original_url ≠ u) := by
  rw [dbInsert] at h
  split_ifs at h with h1 h2 h3 h4
  refine ⟨(by injection h with h; exact h.symm), Nat.le_of_not_lt h1, Nat.le_of_not_lt h2,
    ?_, ?_⟩
  · intro r hr hrl
    exact h3 (List.any_eq_true.mpr ⟨r, hr, beq_iff_eq.mpr hrl⟩)
  · intro r hr hru
    exact h4 (List.any_eq_true.mpr ⟨r, hr, beq_iff_eq.mpr hru⟩)

/-! ## Lemmas about the link generator -/

theorem alphabet_all_word : alphabet.all isWordChar = true := by decide

theorem getD_mem_of_lt {l : List Char} {k : Nat} (d : Char) (h : k < l.length) :
    l.getD k d ∈ l := by
  induction l generalizing k with
  | nil => simp at h
  | cons a as ih =>
    cases k with
    | zero => simp [List.getD]
    | succ k =>
      have : (a :: as).getD (k + 1) d = as.getD k d := rfl
      rw [this]
      exact List.mem_cons_of_mem a (ih (Nat.lt_of_succ_lt_succ h))

theorem generateRandomCharacters_length (n : Nat) (src : Nat → Nat) :
    (generateRandomCharacters n src).length = n := by
  show ((List.range n).map _).length = n
  rw [List.length_map, List.length_range]

theorem generateRandomCharacters_mem_alphabet (n : Nat) (src : Nat → Nat) :
    ∀ c ∈ (generateRandomCharacters n src).data, c ∈ alphabet := by
  intro c hc
  have hc' : c ∈ (List.range n).map
      (fun i => alphabet.getD (src i % alphabet.length) '0') := hc
  obtain ⟨i, _, hi⟩ := List.mem_map.mp hc'
  have hlt : src i % alphabet.length < alphabet.length :=
    Nat.mod_lt _ (by decide)
  exact hi ▸ getD_mem_of_lt '0' hlt

theorem generateRandomCharacters_valid (src : Nat → Nat) :
    matchString linkTemplate (generateRandomCharacters lengthLink src) = true := by
  show RE.matchesL (RE.repn (RE.cls .word) 10) (generateRandomCharacters lengthLink src).data = true
  refine (matchesL_repn .word _ 10).mpr ⟨?_, ?_⟩
  · exact generateRandomCharacters_length lengthLink src
  · refine List.all_eq_true.mpr fun c hc => ?_
    have hmem := generateRandomCharacters_mem_alphabet lengthLink src c hc
    exact List.all_eq_true.mp alphabet_all_word c hmem

/-! ## Specification of the insert loop and of Create -/

/-- A terminating run of the loop either aborts with `ErrReqProc` leaving
the store unchanged, or returns a link generated from one of its random
sources whose insert succeeded. -/
theorem createLoop_spec :
    ∀ (srcs : List (Nat → Nat)) (st st' : Store) (u : String)
      (res : Option LinkMsg × Option SvcError),
      createLoop st u srcs = some (res, st') →
      (res = (none, some .reqProc) ∧ st' = st) ∨
      (∃ src ∈ srcs, res = (some ⟨generateRandomCharacters lengthLink src⟩, none) ∧
        dbInsert st (generateRandomCharacters lengthLink src) u = .ok st') := by
  intro srcs
  induction srcs with
  | nil => intro st st' u res h; simp [createLoop] at h
  | cons src rest ih =>
    intro st st' u res h
    rw [createLoop] at h
    split at h
    next e heq =>
      by_cases he : e = UCViolation
      · rw [if_neg (not_not_intro he)] at h
        rcases ih st st' u res h with h1 | ⟨s, hs, hres, hins⟩
        · exact Or.inl h1
        · exact Or.inr ⟨s, List.mem_cons_of_mem _ hs, hres, hins⟩
      · rw [if_pos he] at h
        rw [Option.some.injEq, Prod.mk.injEq] at h
        exact Or.inl ⟨h.1.symm, h.2.symm⟩
    next st2 heq =>
      rw [Option.some.injEq, Prod.mk.injEq] at h
      exact Or.inr ⟨src, List.mem_cons_self _ _, h.1.symm, h.2 ▸ heq⟩

/-- Full case analysis of a terminating `Create` call. -/
theorem Create_spec {st st' : Store} {u : String} {srcs : List (Nat → Nat)}
    {res : Option LinkMsg × Option SvcError}
    (h : Create st ⟨u⟩ srcs = some (res, st')) :
    (matchString URLTemplate u = false ∧ res = (none, some .invalidURL) ∧ st' = st) ∨
    (matchString URLTemplate u = true ∧
      ((∃ l, lookupByURL st u = some l ∧ res = (some ⟨l⟩, none) ∧ st' = st) ∨
        (lookupByURL st u = none ∧
          ((res = (none, some .reqProc) ∧ st' = st) ∨
            (∃ src ∈ srcs, res = (some ⟨generateRandomCharacters lengthLink src⟩, none) ∧
              dbInsert st (generateRandomCharacters lengthLink src) u = .ok st'))))) := by
  rw [Create] at h
  cases hm : matchString URLTemplate u with
  | false =>
    rw [hm] at h
    rw [show (!false) = true from rfl, if_pos rfl] at h
    rw [Option.some.injEq, Prod.mk.injEq] at h
    exact Or.inl ⟨rfl, h.1.symm, h.2.symm⟩
  | true =>
    rw [hm] at h
    rw [show (!true) = false from rfl] at h
    rw [if_neg (by simp)] at h
    refine Or.inr ⟨rfl, ?_⟩
    cases hl : lookupByURL st u with
    | some l =>
      rw [hl] at h
      rw [Option.some.injEq, Prod.mk.injEq] at h
      exact Or.inl ⟨l, rfl, h.1.symm, h.2.symm⟩
    | none =>
      rw [hl] at h
      exact Or.inr ⟨rfl, createLoop_spec srcs st st' u res h⟩

/-! ## The claims -/

/-- C7: for every string rejected by the URL pattern, `Create` fails with
`ErrInvalidURL` and the store is unchanged, independently of the store
contents and of the random sources (no store operation can influence the
outcome). -/
theorem create_invalid_url_rejected (st : Store) (s : String)
    (srcs : List (Nat → Nat)) (h : matchString URLTemplate s = false) :
    Create st ⟨s⟩ srcs = some ((none, some SvcError.invalidURL), st) := by
  simp only [Create, h, Bool.not_false, if_pos]

/-- C7 witness: the invalid URL of the repository's own test suite. -/
theorem create_invalid_url_rejected_witness :
    matchString URLTemplate "this is not a URL" = false ∧
    Create [] ⟨"this is not a URL"⟩ [] =
      some ((none, some SvcError.invalidURL), []) :=
  ⟨by decide, create_invalid_url_rejected [] "this is not a URL" [] (by decide)⟩

/-- C8: every generated candidate is 10 characters long over the
63-character alphabet and matches the link pattern, and hence every link a
terminating run of the allocation loop hands back matches the link
pattern. -/
theorem generated_codes_valid (src : Nat → Nat) :
    (generateRandomCharacters lengthLink src).length = 10 ∧
    (∀ c ∈ (generateRandomCharacters lengthLink src).data, c ∈ alphabet) ∧
    alphabet.length = 63 ∧
    matchString linkTemplate (generateRandomCharacters lengthLink src) = true ∧
    (∀ (st st' : Store) (u : String) (srcs : List (Nat → Nat)) (l : String)
        (e : Option SvcError),
      createLoop st u srcs = some ((some ⟨l⟩, e), st') →
      matchString linkTemplate l = true) := by
  refine ⟨generateRandomCharacters_length lengthLink src,
    generateRandomCharacters_mem_alphabet lengthLink src, by decide,
    generateRandomCharacters_valid src, ?_⟩
  intro st st' u srcs l e h
  rcases createLoop_spec srcs st st' u _ h with ⟨hres, _⟩ | ⟨s, _, hres, _⟩
  · exact absurd hres (by simp)
  · rw [Prod.mk.injEq, Option.some.injEq, LinkMsg.mk.injEq] at hres
    exact hres.1 ▸ generateRandomCharacters_valid s

/-- C8 witness: the loop conjunct at a concrete run. -/
theorem generated_codes_valid_witness :
    createLoop [] "http://abc.abc/" [fun _ => 0] =
      some ((some ⟨"0000000000"⟩, none), [⟨"0000000000", "http://abc.abc/"⟩]) ∧
    matchString linkTemplate "0000000000" = true :=
  ⟨rfl, (generated_codes_valid (fun _ => 0)).2.2.2.2 [] _ "http://abc.abc/"
    [fun _ => 0] "0000000000" none rfl⟩

/-- C6: `Get` fails with `ErrInvalidLink` exactly when the request is not
10 characters over `[0-9A-Za-z_]`; on a valid link it fails with
`ErrURLNotFound` exactly when no row maps the link, and returns the row's
URL exactly when one does. -/
theorem get_characterization (st : Store) (s : String) :
    (Get st ⟨s⟩ = (none, some SvcError.invalidLink) ↔
      ¬(s.length = 10 ∧ s.data.all isWordChar = true)) ∧
    (Get st ⟨s⟩ = (none, some SvcError.urlNotFound) ↔
      ((s.length = 10 ∧ s.data.all isWordChar = true) ∧ lookupByLink st s = none)) ∧
    (∀ u : String, Get st ⟨s⟩ = (some ⟨u⟩, none) ↔
      ((s.length = 10 ∧ s.data.all isWordChar = true) ∧ lookupByLink st s = some u)) := by
  have hword : CC.mem CC.word = isWordChar := funext fun c => rfl
  have hmatch : matchString linkTemplate s = true ↔
      (s.length = 10 ∧ s.data.all isWordChar = true) := by
    rw [show matchString linkTemplate s =
      RE.matchesL (RE.repn (RE.cls CC.word) 10) s.data from rfl, matchesL_repn, hword]
    exact Iff.rfl
  cases hm : matchString linkTemplate s with
  | false =>
    have hnot : ¬(s.length = 10 ∧ s.data.all isWordChar = true) := fun hc => by
      rw [hmatch.mpr hc] at hm
      cases hm
    have hget : Get st ⟨s⟩ = (none, some SvcError.invalidLink) := by
      simp [Get, hm]
    refine ⟨iff_of_true hget hnot, iff_of_false (by rw [hget]; simp) fun hc => hnot hc.1,
      fun u => iff_of_false (by rw [hget]; simp) fun hc => hnot hc.1⟩
  | true =>
    have hyes : s.length = 10 ∧ s.data.all isWordChar = true := hmatch.mp hm
    cases hl : lookupByLink st s with
    | none =>
      have hget : Get st ⟨s⟩ = (none, some SvcError.urlNotFound) := by
        simp [Get, hm, hl]
      refine ⟨iff_of_false (by rw [hget]; simp) (not_not_intro hyes),
        iff_of_true hget ⟨hyes, rfl⟩, fun u => iff_of_false (by rw [hget]; simp) ?_⟩
      intro hc
      cases hc.2
    | some u0 =>
      have hget : Get st ⟨s⟩ = (some ⟨u0⟩, none) := by
        simp [Get, hm, hl]
      refine ⟨iff_of_false (by rw [hget]; simp) (not_not_intro hyes),
        iff_of_false (by rw [hget]; simp) ?_, fun u => ⟨?_, ?_⟩⟩
      · intro hc
        cases hc.2
      · intro h
        rw [hget, Prod.mk.injEq, Option.some.injEq, URLMsg.mk.injEq] at h
        exact ⟨hyes, by rw [h.1]⟩
      · intro hc
        rw [hget]
        obtain ⟨_, hu⟩ := hc
        injection hu with hu
        rw [hu]

/-- C4: an insert failure whose error text equals the `link_pk` collision
string makes the loop retry with the remaining sources, invisible to the
caller; an insert failure with any other error text aborts the call at
once with `ErrReqProc`, the store unchanged. -/
theorem createLoop_collision_policy (st : Store) (u : String) (src : Nat → Nat)
    (rest : List (Nat → Nat)) (e : String)
    (h : dbInsert st (generateRandomCharacters lengthLink src) u = .error e) :
    (e = UCViolation → createLoop st u (src :: rest) = createLoop st u rest) ∧
    (e ≠ UCViolation →
      createLoop st u (src :: rest) = some ((none, some SvcError.reqProc), st)) := by
  constructor
  · intro he
    simp only [createLoop, h, if_neg (not_not_intro he)]
  · intro he
    simp only [createLoop, h, if_pos he]

/-- C4 witness: a primary-key collision at a concrete store is retried. -/
theorem createLoop_collision_policy_witness :
    dbInsert [⟨"0000000000", "http://xyz.xyz/"⟩]
        (generateRandomCharacters lengthLink (fun _ => 0)) "http://abc.abc/" =
      .error UCViolation ∧
    createLoop [⟨"0000000000", "http://xyz.xyz/"⟩] "http://abc.abc/"
        [fun _ => 0, fun _ => 1] =
      createLoop [⟨"0000000000", "http://xyz.xyz/"⟩] "http://abc.abc/" [fun _ => 1] :=
  ⟨rfl, (createLoop_collision_policy [⟨"0000000000", "http://xyz.xyz/"⟩]
    "http://abc.abc/" (fun _ => 0) [fun _ => 1] UCViolation rfl).1 rfl⟩

/-- C3 counterexample: writer A creates a mapping for the URL; writer B,
whose lookup-by-URL ran before A committed (it saw the empty store), then
runs its insert loop against the store holding A's row.  The insert fails
on the URL-uniqueness constraint, whose error text differs from the
`link_pk` string the code compares against, so B returns `ErrReqProc` —
it does not perform a fresh lookup and does not return A's code
`"AAAAAAAAAA"`. -/
theorem create_url_race_counterexample :
    Create [] ⟨"http://abc.abc/"⟩ [fun _ => 10] =
      some ((some ⟨"AAAAAAAAAA"⟩, none), [⟨"AAAAAAAAAA", "http://abc.abc/"⟩]) ∧
    lookupByURL [] "http://abc.abc/" = none ∧
    createLoop [⟨"AAAAAAAAAA", "http://abc.abc/"⟩] "http://abc.abc/" [fun _ => 0] =
      some ((none, some SvcError.reqProc), [⟨"AAAAAAAAAA", "http://abc.abc/"⟩]) :=
  ⟨rfl, rfl, rfl⟩

/-- C3 amended: when the insert during `Create(u)` fails because another
writer committed a row for `u` between lookup and insert, the code does
not detect this failure mode: the error string differs from the `link_pk`
collision string, so `Create` aborts immediately with `ErrReqProc`; no
fresh lookup-by-URL happens and the stored code is not returned. -/
theorem create_url_race_aborts (st : Store) (u : String) (src : Nat → Nat)
    (rest : List (Nat → Nat))
    (hexists : ∃ r ∈ st, r.original_url = u)
    (hfresh : ∀ r ∈ st, r.link ≠ generateRandomCharacters lengthLink src)
    (hlen : u.length ≤ 2048) :
    createLoop st u (src :: rest) = some ((none, some SvcError.reqProc), st) := by
  have hins : dbInsert st (generateRandomCharacters lengthLink src) u =
      .error urlUCViolation := by
    have h1 : ¬(10 < (generateRandomCharacters lengthLink src).length) := by
      rw [generateRandomCharacters_length]
      decide
    have h2 : ¬(2048 < u.length) := Nat.not_lt.mpr hlen
    have h3 : ¬(st.any (fun r => r.link == generateRandomCharacters lengthLink src) = true) := by
      intro hc
      obtain ⟨r, hr, hb⟩ := List.any_eq_true.mp hc
      exact hfresh r hr (beq_iff_eq.mp hb)
    have h4 : st.any (fun r => r.original_url == u) = true := by
      obtain ⟨r, hr, hu⟩ := hexists
      exact List.any_eq_true.mpr ⟨r, hr, beq_iff_eq.mpr hu⟩
    rw [dbInsert, if_neg h1, if_neg h2, if_neg h3, if_pos h4]
  simp only [createLoop, hins, if_pos (show urlUCViolation ≠ UCViolation by decide)]

/-- C2: a successful `Create` leaves a store on which `Create` for the
same URL succeeds again with the same link, regardless of the random
sources of the second call: an existing mapping is returned without a new
allocation. -/
theorem create_idempotent {st st' : Store} {u : String}
    {srcs srcs' : List (Nat → Nat)} {l : LinkMsg}
    (h : Create st ⟨u⟩ srcs = some ((some l, none), st')) :
    Create st' ⟨u⟩ srcs' = some ((some l, none), st') := by
  rcases Create_spec h with ⟨_, hres, _⟩ | ⟨hm, hrest⟩
  · exact absurd hres (by simp)
  · rcases hrest with ⟨l0, hl0, hres, hst⟩ | ⟨hnone, hloop⟩
    · rw [Prod.mk.injEq, Option.some.injEq] at hres
      subst hst
      simp only [Create, hm, Bool.not_true, Bool.false_eq_true, if_neg, hl0,
        hres.1]
      simp
    · rcases hloop with ⟨hres, _⟩ | ⟨src, hsrc, hres, hins⟩
      · exact absurd hres (by simp)
      · rw [Prod.mk.injEq, Option.some.injEq] at hres
        obtain ⟨hst', _, _, _, hfreshU⟩ := dbInsert_ok hins
        have hlook : lookupByURL st' u = some (generateRandomCharacters lengthLink src) := by
          rw [hst']
          exact lookupByURL_append_fresh (lookupByURL_eq_none.mp hnone)
        simp only [Create, hm, Bool.not_true, Bool.false_eq_true, if_neg, hlook,
          hres.1]
        simp

/-- C2 witness: two sequential creations of `http://abc.abc/`. -/
theorem create_idempotent_witness :
    Create [] ⟨"http://abc.abc/"⟩ [fun _ => 0] =
      some ((some ⟨"0000000000"⟩, none), [⟨"0000000000", "http://abc.abc/"⟩]) ∧
    Create [⟨"0000000000", "http://abc.abc/"⟩] ⟨"http://abc.abc/"⟩ [] =
      some ((some ⟨"0000000000"⟩, none), [⟨"0000000000", "http://abc.abc/"⟩]) :=
  ⟨rfl, create_idempotent (show Create [] ⟨"http://abc.abc/"⟩ [fun _ => 0] =
    some ((some ⟨"0000000000"⟩, none), [⟨"0000000000", "http://abc.abc/"⟩]) from rfl)⟩

/-- C1: on a well-formed store, a successful `Create` for a URL accepted
by the URL pattern is inverted by `Get`: resolving the returned link on
the resulting store returns exactly the created URL. -/
theorem create_get_roundtrip {st st' : Store} {u : String}
    {srcs : List (Nat → Nat)} {l : LinkMsg}
    (hwf : WF st)
    (hu : matchString URLTemplate u = true)
    (h : Create st ⟨u⟩ srcs = some ((some l, none), st')) :
    Get st' ⟨l.link⟩ = (some ⟨u⟩, none) := by
  rcases Create_spec h with ⟨hm, _, _⟩ | ⟨_, hrest⟩
  · rw [hu] at hm
    cases hm
  · rcases hrest with ⟨l0, hl0, hres, hst⟩ | ⟨hnone, hloop⟩
    · rw [Prod.mk.injEq, Option.some.injEq] at hres
      rw [hst]
      obtain ⟨r, hrmem, hru, hrl⟩ := lookupByURL_eq_some hl0
      have hval : matchString linkTemplate l0 = true := hrl ▸ hwf.2 r hrmem
      have hlook : lookupByLink st l0 = some u := by
        have hmem := lookupByLink_of_mem hwf.1.1 hrmem
        rw [hrl, hru] at hmem
        exact hmem
      rw [hres.1]
      simp [Get, hval, hlook]
    · rcases hloop with ⟨hres, _⟩ | ⟨src, hsrc, hres, hins⟩
      · exact absurd hres (by simp)
      · rw [Prod.mk.injEq, Option.some.injEq] at hres
        obtain ⟨hst', _, _, hfreshL, _⟩ := dbInsert_ok hins
        have hval := generateRandomCharacters_valid src
        have hlook : lookupByLink st' (generateRandomCharacters lengthLink src) = some u := by
          rw [hst']
          exact lookupByLink_append_fresh hfreshL
        rw [hres.1]
        simp [Get, hval, hlook]

/-- C1 witness: create on the empty store, then resolve. -/
theorem create_get_roundtrip_witness :
    WF [] ∧ matchString URLTemplate "http://abc.abc/" = true ∧
    Create [] ⟨"http://abc.abc/"⟩ [fun _ => 0] =
      some ((some ⟨"0000000000"⟩, none), [⟨"0000000000", "http://abc.abc/"⟩]) ∧
    Get [⟨"0000000000", "http://abc.abc/"⟩] ⟨"0000000000"⟩ =
      (some ⟨"http://abc.abc/"⟩, none) :=
  ⟨by simp [WF, Inv], by decide, rfl,
    create_get_roundtrip (by simp [WF, Inv]) (by decide)
      (show Create [] ⟨"http://abc.abc/"⟩ [fun _ => 0] =
        some ((some ⟨"0000000000"⟩, none),
          [⟨"0000000000", "http://abc.abc/"⟩]) from rfl)⟩

/-- Appending a row whose projection is fresh preserves distinctness of
that projection. -/
theorem nodup_map_append_fresh {f : Row → String} {st : List Row} {r0 : Row}
    (h : (st.map f).Nodup) (hfresh : ∀ r ∈ st, f r ≠ f r0) :
    ((st ++ [r0]).map f).Nodup := by
  rw [List.map_append, List.map_singleton, List.nodup_append]
  refine ⟨h, List.nodup_singleton _, ?_⟩
  intro a ha hb
  rw [List.mem_singleton] at hb
  obtain ⟨r, hr, hfr⟩ := List.mem_map.mp ha
  exact hfresh r hr (by rw [hfr, hb])

/-- Serving one request preserves the schema invariant. -/
theorem runOp_preserves_inv (st : Store) (op : Op) (h : Inv st) :
    Inv (runOp st op) := by
  cases op with
  | get _ => exact h
  | create u srcs =>
    rw [runOp]
    cases hc : Create st u srcs with
    | none => exact h
    | some p =>
      obtain ⟨res, st2⟩ := p
      rcases Create_spec hc with ⟨_, _, hst⟩ | ⟨_, hrest⟩
      · exact hst ▸ h
      · rcases hrest with ⟨l0, _, _, hst⟩ | ⟨_, hloop⟩
        · exact hst ▸ h
        · rcases hloop with ⟨_, hst⟩ | ⟨src, _, _, hins⟩
          · exact hst ▸ h
          · obtain ⟨hst2, _, _, hfreshL, hfreshU⟩ := dbInsert_ok hins
            rw [hst2]
            exact ⟨nodup_map_append_fresh h.1 fun r hr => hfreshL r hr,
              nodup_map_append_fresh h.2 fun r hr => hfreshU r hr⟩

/-- C5: the bijection invariant of the `links` table — no two rows share a
link and no two rows share a URL — is preserved by every sequence of
`Create` and `Get` requests. -/
theorem inv_preserved (st : Store) (ops : List Op) (h : Inv st) :
    Inv (run st ops) := by
  induction ops generalizing st with
  | nil => exact h
  | cons op ops ih => exact ih (runOp st op) (runOp_preserves_inv st op h)

/-- C5 witness: a create followed by a resolve, from the empty store. -/
theorem inv_preserved_witness :
    Inv [] ∧
    Inv (run [] [Op.create ⟨"http://abc.abc/"⟩ [fun _ => 0], Op.get ⟨"0000000000"⟩]) :=
  ⟨⟨List.nodup_nil, List.nodup_nil⟩,
    inv_preserved [] [Op.create ⟨"http://abc.abc/"⟩ [fun _ => 0], Op.get ⟨"0000000000"⟩]
      ⟨List.nodup_nil, List.nodup_nil⟩⟩

/-- Evaluation of `Create` on the over-long URL: the pattern accepts it,
no mapping exists, and the insert fails on the varchar(2048) width with an
error other than the collision string, so the call reports `ErrReqProc`
and the store stays empty. -/
theorem create_reqProc_of_insert_error {st : Store} {u : String}
    {src : Nat → Nat} {rest : List (Nat → Nat)} {e : String}
    (hm : matchString URLTemplate u = true)
    (hl : lookupByURL st u = none)
    (hins : dbInsert st (generateRandomCharacters lengthLink src) u = .error e)
    (hne : e ≠ UCViolation) :
    Create st ⟨u⟩ (src :: rest) = some ((none, some SvcError.reqProc), st) := by
  simp only [Create, hm, Bool.not_true, Bool.false_eq_true, if_neg, not_false_eq_true,
    hl, createLoop, hins, if_pos hne]

theorem create_longURL_eval :
    Create [] ⟨longURL⟩ [fun _ => 0] =
      some ((none, some SvcError.reqProc), []) := by
  have hins : dbInsert [] (generateRandomCharacters lengthLink (fun _ => 0)) longURL =
      .error urlTooLong := by
    have h1 : ¬(10 < (generateRandomCharacters lengthLink (fun _ => 0)).length) := by
      rw [generateRandomCharacters_length]
      decide
    have h2 : 2048 < longURL.length := by
      rw [longURL_length]
      decide
    rw [dbInsert, if_neg h1, if_pos h2]
  exact create_reqProc_of_insert_error matchString_longURL rfl hins (by decide)

/-- C9 counterexample: the URL validator does not enforce the
2048-character bound of the schema — it accepts a 2054-character URL. -/
theorem url_length_counterexample :
    matchString URLTemplate longURL = true ∧ 2048 < longURL.length :=
  ⟨matchString_longURL, by rw [longURL_length]; decide⟩

/-- C9 amended: the URL validator accepts some strings longer than 2048
characters, so the length bound is not enforced by validation; however, a
string longer than 2048 characters is never inserted as a new mapping —
any terminating `Create` on such a string leaves the store exactly as it
was (the varchar(2048) width check rejects the insert). -/
theorem url_length_amended :
    (∃ s : String, matchString URLTemplate s = true ∧ 2048 < s.length) ∧
    (∀ (st st' : Store) (u : String) (srcs : List (Nat → Nat))
        (res : Option LinkMsg × Option SvcError),
      2048 < u.length → Create st ⟨u⟩ srcs = some (res, st') → st' = st) := by
  constructor
  · exact ⟨longURL, matchString_longURL, by rw [longURL_length]; decide⟩
  · intro st st' u srcs res hlen h
    rcases Create_spec h with ⟨_, _, hst⟩ | ⟨_, hrest⟩
    · exact hst
    · rcases hrest with ⟨l0, _, _, hst⟩ | ⟨_, hloop⟩
      · exact hst
      · rcases hloop with ⟨_, hst⟩ | ⟨src, _, _, hins⟩
        · exact hst
        · have hle := (dbInsert_ok hins).2.2.1
          omega

/-- C9 witness: the amended universal statement at the long URL. -/
theorem url_length_amended_witness :
    2048 < longURL.length ∧
    Create [] ⟨longURL⟩ [fun _ => 0] = some ((none, some SvcError.reqProc), []) ∧
    ([] : Store) = [] := by
  have h1 : 2048 < longURL.length := by rw [longURL_length]; decide
  exact ⟨h1, create_longURL_eval,
    url_length_amended.2 [] [] longURL [fun _ => 0] (none, some SvcError.reqProc)
      h1 create_longURL_eval⟩

/-- C10: a terminating `Create` and any `Get` return exactly one of a
response and an error: on success the response is present and the error
absent, on failure the response is absent and the error present. -/
theorem responses_exclusive :
    (∀ (st st' : Store) (u : String) (srcs : List (Nat → Nat))
        (res : Option LinkMsg × Option SvcError),
      Create st ⟨u⟩ srcs = some (res, st') →
      ((res.1.isSome = true ∧ res.2 = none) ∨ (res.1 = none ∧ res.2.isSome = true))) ∧
    (∀ (st : Store) (l : String),
      (((Get st ⟨l⟩).1.isSome = true ∧ (Get st ⟨l⟩).2 = none) ∨
        ((Get st ⟨l⟩).1 = none ∧ (Get st ⟨l⟩).2.isSome = true))) := by
  constructor
  · intro st st' u srcs res h
    rcases Create_spec h with ⟨_, hres, _⟩ | ⟨_, hrest⟩
    · rw [hres]
      simp
    · rcases hrest with ⟨l0, _, hres, _⟩ | ⟨_, hloop⟩
      · rw [hres]
        simp
      · rcases hloop with ⟨hres, _⟩ | ⟨src, _, hres, _⟩ <;> rw [hres] <;> simp
  · intro st l
    cases hm : matchString linkTemplate l with
    | false => simp [Get, hm]
    | true =>
      cases hl : lookupByLink st l with
      | none => simp [Get, hm, hl]
      | some u0 => simp [Get, hm, hl]

/-- C10 witness: the `Create` conjunct at a concrete successful call. -/
theorem responses_exclusive_witness :
    Create [] ⟨"http://abc.abc/"⟩ [fun _ => 0] =
      some ((some ⟨"0000000000"⟩, none), [⟨"0000000000", "http://abc.abc/"⟩]) ∧
    (((some ⟨"0000000000"⟩ : Option LinkMsg).isSome = true ∧
        (none : Option SvcError) = none) ∨
      ((some ⟨"0000000000"⟩ : Option LinkMsg) = none ∧
        (none : Option SvcError).isSome = true)) :=
  ⟨rfl, responses_exclusive.1 [] [⟨"0000000000", "http://abc.abc/"⟩] "http://abc.abc/"
    [fun _ => 0] (some ⟨"0000000000"⟩, none)
    (show Create [] ⟨"http://abc.abc/"⟩ [fun _ => 0] =
      some ((some ⟨"0000000000"⟩, none), [⟨"0000000000", "http://abc.abc/"⟩]) from rfl)⟩

/-- C3 amended witness: the concrete race of the counterexample. -/
theorem create_url_race_aborts_witness :
    (∃ r ∈ ([⟨"AAAAAAAAAA", "http://abc.abc/"⟩] : Store),
      r.original_url = "http://abc.abc/") ∧
    createLoop [⟨"AAAAAAAAAA", "http://abc.abc/"⟩] "http://abc.abc/"
        [fun _ => 0, fun _ => 1] =
      some ((none, some SvcError.reqProc), [⟨"AAAAAAAAAA", "http://abc.abc/"⟩]) :=
  ⟨⟨⟨"AAAAAAAAAA", "http://abc.abc/"⟩, by simp, rfl⟩,
    create_url_race_aborts [⟨"AAAAAAAAAA", "http://abc.abc/"⟩] "http://abc.abc/"
      (fun _ => 0) [fun _ => 1]
      ⟨⟨"AAAAAAAAAA", "http://abc.abc/"⟩, by simp, rfl⟩ (by decide) (by decide)⟩

end LinkService
